import Mathlib

/-!
Verification of the pm2-notify log-event-to-email bridge (`src/app.ts`).

The program subscribes to pm2 bus events, filters them against a configured
watch-list per event category, buffers accepted events in per-category queues,
and emits batched emails: error-category events are debounced through a single
nullable `mailTimeout` slot, while non-error events carrying the broadcast
marker `BROADCST:EMAIL` trigger an immediate dispatch.  Every dispatch
(`sendMail`) drains all queues, coalesces fragments per process name,
HTML-escapes the concatenated content, renders via the template collaborators,
and releases the `mailTimeout` slot in its `finally` block.

The embedding below is a shallow state-passing translation: the mutable module
state (`queues`, `mailTimeout`) becomes an explicit `AppState`, external
collaborators (handlebars template, mjml renderer) become function parameters,
and the `setTimeout` handles are tracked by a ghost counter `armedTimers`
(the code never calls `clearTimeout`, so a handle disappears only by firing).
-/

/-- Shape of `packet.process` as used by `app.ts` (field `name`). -/
structure ProcessInfo where
  name : String
deriving DecidableEq

/-- A pm2 bus packet as used by `app.ts`: `packet.process.name` and `packet.data`. -/
structure Packet where
  process : ProcessInfo
  data : String
deriving DecidableEq

/-- A queued log fragment (`QData` from `types.ts`, fields as pushed in `handleEvent`). -/
structure QData where
  event : String
  name : String
  message : String
deriving DecidableEq

/-- An aggregated log entry (`Log` from `types.ts`, as built in `aggregateLogs`). -/
structure Log where
  name : String
  message : String
deriving DecidableEq

/-- The message handed to `transporter.sendMail` (subject and rendered html). -/
structure MailMsg where
  subject : String
  html : String
deriving DecidableEq

/-- Mail settings; only the `subject` field is observable in the modelled code. -/
structure MailConfig where
  subject : String
deriving DecidableEq

/-- Modelled from the spec: the configuration module (`config.ts` is not among the
sources) — a static mapping from category to watched process names (`target`,
whose key order fixes the queue iteration order, as JS object key order does),
the debounce interval `timeout`, and mail settings. -/
structure Config where
  target : List (String × List String)
  timeout : Nat
  mail : MailConfig

/-- The external collaborators of a dispatch: the compiled handlebars `template`
applied to the aggregated logs, and `mjml2html` returning `(errors, html)`.
The mail transport itself needs no parameter: `sendMail` catches any send
failure and the resulting state is identical whether the send succeeds or not. -/
structure Collaborators where
  template : List Log → String
  mjml2html : String → List String × String

/-- The mutable module state of `app.ts`: the per-category `queues` (association
list in `config.target` key order), the nullable `mailTimeout` slot (modelled
as a Bool: `true` = non-null), and a ghost count `armedTimers` of `setTimeout`
handles that have been created and have not yet fired (the code never cancels
a timer, so this only decreases when a timer fires). -/
structure AppState where
  queues : List (String × List QData)
  mailTimeout : Bool
  armedTimers : Nat
deriving DecidableEq

/-- Observable effects of one `sendMail` run: the aggregated `logs` handed to
the template collaborator, and the message handed to `transporter.sendMail`
(`none` when rendering reported errors and the send was skipped). -/
structure DispatchResult where
  logs : List Log
  sent : Option MailMsg
deriving DecidableEq

/-- Whether `pat` matches at the head of `s` (prefix test on character lists). -/
def matchesHead : List Char → List Char → Bool
  | [], _ => true
  | _ :: _, [] => false
  | p :: ps, c :: cs => p == c && matchesHead ps cs

/-- Whether `pat` occurs anywhere in `s` (substring occurrence on character lists). -/
def occursIn (pat : List Char) : List Char → Bool
  | [] => matchesHead pat []
  | c :: cs => matchesHead pat (c :: cs) || occursIn pat cs

/-- JavaScript `s.includes(pat)`: substring containment test. -/
def strIncludes (s pat : String) : Bool :=
  occursIn pat.data s.data

/-- Concatenation of a list of strings in order. -/
def concatList : List String → String
  | [] => ""
  | s :: rest => s ++ concatList rest

/-- Uppercase hexadecimal digit for `n < 16`. -/
def hexDigitChar (n : Nat) : Char :=
  if n < 10 then Char.ofNat (48 + n) else Char.ofNat (55 + n)

/-- Fuel-driven uppercase-hex printer (fuel `n + 1` always suffices). -/
def toHexUpperAux : Nat → Nat → String
  | 0, _ => ""
  | _ + 1, n =>
    if n < 16 then String.singleton (hexDigitChar n)
    else toHexUpperAux n (n / 16) ++ String.singleton (hexDigitChar (n % 16))

/-- Uppercase hexadecimal rendering of a natural number, no leading zeros. -/
def toHexUpper (n : Nat) : String :=
  toHexUpperAux (n + 1) n

/-- Characters the `he.encode` collaborator escapes under its default options:
the HTML-special ASCII characters (ampersand, angle brackets, double quote,
apostrophe, backtick) and everything outside printable ASCII. -/
def isHeEscaped (c : Char) : Bool :=
  c.toNat == 38 || c.toNat == 60 || c.toNat == 62 || c.toNat == 34 ||
    c.toNat == 39 || c.toNat == 96 || c.toNat < 32 || c.toNat > 126

/-- Escape a single character the way `he.encode` does by default: special and
non-printable-ASCII characters become hexadecimal numeric character references. -/
def heEncodeChar (c : Char) : String :=
  if isHeEscaped c then "&#x" ++ toHexUpper c.toNat ++ ";" else String.singleton c

/-- Model of the `he.encode` collaborator (default options): character-wise
escaping of the input. -/
def heEncode (s : String) : String :=
  concatList (s.data.map heEncodeChar)

/-- One step of building the `content` record in `aggregateLogs`:
`content[name] = (content[name] || '') + message`.  JS object semantics: an
existing key is updated in place, a new key is appended at the end, so
first-seen order of process names is preserved. -/
def addFragment : List (String × String) → String → String → List (String × String)
  | [], n, m => [(n, m)]
  | (k, v) :: rest, n, m =>
    if k == n then (k, v ++ m) :: rest else (k, v) :: addFragment rest n m

/-- The `content` record built by the inner loop of `aggregateLogs` over one
drained queue: fragments folded left in arrival order. -/
def contentOf (qdata : List QData) : List (String × String) :=
  qdata.foldl (fun c d => addFragment c d.name d.message) []

/-- Association-list lookup (JS `content[name]`). -/
def lookupA : List (String × String) → String → Option String
  | [], _ => none
  | (k, v) :: rest, n => if k == n then some v else lookupA rest n

/-- The concatenation, in arrival order, of the messages of the fragments with
process name `n`.  Specification-side description of what `contentOf` computes. -/
def concatMsgs (n : String) (qdata : List QData) : String :=
  concatList ((qdata.filter fun d => d.name == n).map fun d => d.message)

/-- The log entries `aggregateLogs` emits for one category: one entry per
process name in the `content` record, labelled `name ++ " " ++ event`, with
the concatenated message HTML-escaped after concatenation. -/
def aggregateQueue (event : String) (qdata : List QData) : List Log :=
  (contentOf qdata).map fun p => { name := p.1 ++ " " ++ event, message := heEncode p.2 }

/-- `aggregateLogs` from `app.ts`: iterates over every queue in key order,
splices (drains) each one entirely, and emits the per-category entries in
order.  Returns the emitted logs together with the drained queues (the
splice empties every queue but keeps its key). -/
def aggregateLogs (queues : List (String × List QData)) :
    List Log × List (String × List QData) :=
  ((queues.map fun p => aggregateQueue p.1 p.2).flatten,
   queues.map fun p => (p.1, ([] : List QData)))

/-- The watch-list `config.target[event]`.  `handleEvent` is only ever invoked
for subscribed categories (the keys of `config.target`); for any other string
this returns `[]`, making the classifier reject everything. -/
def watchlist (cfg : Config) (event : String) : List String :=
  match cfg.target.find? fun p => p.1 == event with
  | some p => p.2
  | none => []

/-- `queues[event].push(d)`: append `d` to the queue stored under `event`
(keys are unique, coming from the keys of `config.target`). -/
def pushQueue (queues : List (String × List QData)) (event : String) (d : QData) :
    List (String × List QData) :=
  queues.map fun p => if p.1 == event then (p.1, p.2 ++ [d]) else p

/-- `sendMail` from `app.ts` as a state transformer: aggregate (draining every
queue), render through the template and mjml collaborators, skip the send when
mjml reports errors (the thrown error is caught and only logged), and in the
`finally` block set `mailTimeout = null` — regardless of outcome.  The
`armedTimers` ghost is untouched: no timer handle is created or cancelled here. -/
def sendMail (co : Collaborators) (cfg : Config) (eventName : String)
    (st : AppState) : AppState × DispatchResult :=
  let (logs, drained) := aggregateLogs st.queues
  let content := co.template logs
  let (errors, html) := co.mjml2html content
  let sent : Option MailMsg :=
    if errors.length > 0 then none
    else some { subject := (if eventName == "" then "log:err" else eventName) ++ "-" ++
                  cfg.mail.subject,
                html := html }
  ({ st with queues := drained, mailTimeout := false }, { logs := logs, sent := sent })

/-- `handleEvent` from `app.ts`: reject events whose process name is not on the
category's watch-list; otherwise queue the fragment, then either arm the
debounce timer (error category, slot empty), do nothing more (error category,
slot occupied, or non-error without marker), or run an immediate dispatch
(non-error category whose payload contains the broadcast marker).  The second
component reports a dispatch that ran, if any. -/
def handleEvent (co : Collaborators) (cfg : Config) (event : String)
    (packet : Packet) (st : AppState) : AppState × Option DispatchResult :=
  if !(watchlist cfg event).contains packet.process.name then
    (st, none)
  else
    let d : QData := ⟨event, packet.process.name, packet.data⟩
    let st1 : AppState := { st with queues := pushQueue st.queues event d }
    if event == "log:err" then
      if st1.mailTimeout then (st1, none)
      else ({ st1 with mailTimeout := true, armedTimers := st1.armedTimers + 1 }, none)
    else if strIncludes packet.data "BROADCST:EMAIL" then
      let (st2, r) := sendMail co cfg event st1
      (st2, some r)
    else (st1, none)

/-- An observable step of the scheduler: either the bus delivers an event, or
one of the armed debounce timers elapses. -/
inductive AppAction where
  | ev (event : String) (packet : Packet)
  | fire
deriving DecidableEq

/-- One scheduler step.  A firing timer runs `sendMail "log:err"` (the callback
captured `event = 'log:err'`, the only value ever armed) and the fired handle
is gone, so the ghost count drops by one. -/
def step (co : Collaborators) (cfg : Config) (st : AppState) :
    AppAction → AppState × Option DispatchResult
  | .ev e p => handleEvent co cfg e p st
  | .fire =>
    if st.armedTimers > 0 then
      let (st2, r) := sendMail co cfg "log:err" { st with armedTimers := st.armedTimers - 1 }
      (st2, some r)
    else (st, none)

/-- Run a sequence of scheduler steps, keeping only the state. -/
def runState (co : Collaborators) (cfg : Config) (st : AppState) :
    List AppAction → AppState
  | [] => st
  | a :: rest => runState co cfg (step co cfg st a).1 rest

/-- The categories subscribed to: the keys of `config.target`. -/
def eventTypes (cfg : Config) : List String :=
  cfg.target.map Prod.fst

/-- The module state after startup: one empty queue per configured category,
no pending slot, no armed timer. -/
def initState (cfg : Config) : AppState :=
  { queues := (eventTypes cfg).map fun e => (e, ([] : List QData)),
    mailTimeout := false,
    armedTimers := 0 }

/-- Outcome of the startup sequence (the main IIFE together with
`verifySmtpConnection`): an explicit `process.exit`, a successful subscription
to every configured category, or the top-level `catch` running (which only
logs `Fatal error` — the process then ends without an explicit exit code). -/
inductive StartupResult where
  | exited (code : Nat)
  | subscribed (events : List String)
  | caughtFatal
deriving DecidableEq

/-- The startup control flow of `app.ts`: `verifySmtpConnection` calls
`process.exit(1)` on failure; afterwards `pm2.connect` and `pm2.launchBus`
failures reject the IIFE promise, which is handled by `.catch` (log only);
on full success every category is subscribed. -/
def startup (smtpOk pm2ConnectOk launchBusOk : Bool) (cfg : Config) : StartupResult :=
  if !smtpOk then .exited 1
  else if !pm2ConnectOk then .caughtFatal
  else if !launchBusOk then .caughtFatal
  else .subscribed (eventTypes cfg)

/-- Whether a startup outcome is a process termination with a non-zero status. -/
def exitsNonzero : StartupResult → Bool
  | .exited c => c != 0
  | _ => false

/-- An action that is not a broadcast-marker event in a non-error category
(the only kind of action that triggers a dispatch outside the timer path). -/
def broadcastFree : AppAction → Bool
  | .ev e p => e == "log:err" || !strIncludes p.data "BROADCST:EMAIL"
  | .fire => true

/-- The single-timer invariant: the ghost count of armed timer handles agrees
with the `mailTimeout` slot (one handle exactly when the slot is occupied). -/
def timerInv (st : AppState) : Prop :=
  st.armedTimers = if st.mailTimeout then 1 else 0

/-- A concrete configuration: an error category and an informational category,
both watching process `svc`. -/
def cfgEx : Config :=
  { target := [("log:err", ["svc"]), ("log:out", ["svc"])],
    timeout := 1000,
    mail := { subject := "alerts" } }

/-- Collaborators whose rendering always succeeds (mjml reports no errors). -/
def coId : Collaborators :=
  { template := fun _ => "tpl", mjml2html := fun s => ([], s) }

/-- Collaborators whose mjml step always reports a structural error. -/
def coErr : Collaborators :=
  { template := fun _ => "tpl", mjml2html := fun s => (["bad markup"], s) }

/-- An error event packet from process `svc` with payload `A`. -/
def pErrA : Packet := { process := { name := "svc" }, data := "A" }

/-- An error event packet from process `svc` with payload `B`. -/
def pErrB : Packet := { process := { name := "svc" }, data := "B" }

/-- A non-error packet from `svc` whose payload contains the broadcast marker. -/
def pBroadcast : Packet := { process := { name := "svc" }, data := "x BROADCST:EMAIL" }

/-- A packet from a process that is on no watch-list. -/
def pGhost : Packet := { process := { name := "ghost" }, data := "Z" }

/-- A configuration with a single error category watching `ws`. -/
def cfgErr (ws : List String) (t : Nat) (ms : String) : Config :=
  { target := [("log:err", ws)], timeout := t, mail := { subject := ms } }

/-- The claim-C4 scenario: two error events from process `n` with payloads `a`
then `b`, followed by the debounce timer firing.  Returns the three
intermediate results in order. -/
def twoErrorsThenFire (co : Collaborators) (cfg : Config) (n a b : String) :
    (AppState × Option DispatchResult) × (AppState × Option DispatchResult) ×
      (AppState × Option DispatchResult) :=
  let s1 := handleEvent co cfg "log:err" ⟨⟨n⟩, a⟩ (initState cfg)
  let s2 := handleEvent co cfg "log:err" ⟨⟨n⟩, b⟩ s1.1
  let s3 := step co cfg s2.1 AppAction.fire
  (s1, s2, s3)

/-- An error fragment from `svc` whose payload ends in an ampersand. -/
def qdAmp : QData := ⟨"log:err", "svc", "a&"⟩

/-- A subsequent error fragment from `svc`. -/
def qdTail : QData := ⟨"log:err", "svc", "b"⟩

/-! ## Helper lemmas -/

theorem lookupA_addFragment_eq (c : List (String × String)) (n m : String) :
    lookupA (addFragment c n m) n = some ((lookupA c n).getD "" ++ m) := by
  induction c with
  | nil => simp [addFragment, lookupA]
  | cons kv rest ih =>
    obtain ⟨k, v⟩ := kv
    by_cases h : k = n
    · subst h
      simp [addFragment, lookupA]
    · simp [addFragment, lookupA, beq_iff_eq, h, ih]

theorem lookupA_addFragment_ne (c : List (String × String)) (n m n' : String)
    (h : n' ≠ n) : lookupA (addFragment c n m) n' = lookupA c n' := by
  induction c with
  | nil => simp [addFragment, lookupA, beq_iff_eq, Ne.symm h]
  | cons kv rest ih =>
    obtain ⟨k, v⟩ := kv
    by_cases hk : k = n
    · subst hk
      simp [addFragment, lookupA, beq_iff_eq, Ne.symm h]
    · simp [addFragment, lookupA, beq_iff_eq, hk, ih]

theorem concatMsgs_cons (n : String) (d : QData) (rest : List QData) :
    concatMsgs n (d :: rest) =
      (if d.name == n then d.message else "") ++ concatMsgs n rest := by
  by_cases h : d.name = n <;>
    simp [concatMsgs, List.filter_cons, beq_iff_eq, h, concatList]

theorem concatMsgs_eq_empty (n : String) (qdata : List QData)
    (h : (qdata.any fun d => d.name == n) = false) : concatMsgs n qdata = "" := by
  induction qdata with
  | nil => rfl
  | cons d rest ih =>
    rw [List.any_cons, Bool.or_eq_false_iff] at h
    rw [concatMsgs_cons, h.1, ih h.2]
    simp

theorem lookupA_foldl_addFragment (qdata : List QData) (acc : List (String × String))
    (n : String) :
    lookupA (qdata.foldl (fun c d => addFragment c d.name d.message) acc) n =
      if qdata.any fun d => d.name == n
      then some ((lookupA acc n).getD "" ++ concatMsgs n qdata)
      else lookupA acc n := by
  induction qdata generalizing acc with
  | nil => simp
  | cons d rest ih =>
    rw [List.foldl_cons, ih, List.any_cons]
    by_cases h : d.name = n
    · subst h
      rw [lookupA_addFragment_eq, concatMsgs_cons]
      simp only [beq_self_eq_true, Bool.true_or, if_true]
      cases hr : rest.any fun x => x.name == d.name with
      | true => simp [hr, String.append_assoc]
      | false => simp [hr, concatMsgs_eq_empty _ _ hr]
    · have hb : (d.name == n) = false := by simp [beq_iff_eq, h]
      rw [lookupA_addFragment_ne _ _ _ _ (Ne.symm h), concatMsgs_cons, hb]
      simp

theorem lookupA_contentOf (qdata : List QData) (n : String)
    (h : (qdata.any fun d => d.name == n) = true) :
    lookupA (contentOf qdata) n = some (concatMsgs n qdata) := by
  unfold contentOf
  rw [lookupA_foldl_addFragment, if_pos h]
  simp [lookupA]

theorem mem_of_lookupA (c : List (String × String)) (n m : String)
    (h : lookupA c n = some m) : (n, m) ∈ c := by
  induction c with
  | nil => simp [lookupA] at h
  | cons kv rest ih =>
    obtain ⟨k, v⟩ := kv
    by_cases hk : k = n
    · subst hk
      simp [lookupA] at h
      simp [h]
    · simp only [lookupA, beq_iff_eq, if_neg hk] at h
      exact List.mem_cons_of_mem _ (ih h)

theorem mem_aggregateQueue (ev : String) (qdata : List QData) (n : String)
    (h : (qdata.any fun d => d.name == n) = true) :
    Log.mk (n ++ " " ++ ev) (heEncode (concatMsgs n qdata)) ∈ aggregateQueue ev qdata :=
  List.mem_map_of_mem _ (mem_of_lookupA _ _ _ (lookupA_contentOf qdata n h))

theorem aggregateQueue_nil (ev : String) : aggregateQueue ev [] = [] := rfl

theorem aggregateLogs_fst_of_empty (qs : List (String × List QData))
    (h : ∀ p ∈ qs, p.2 = ([] : List QData)) : (aggregateLogs qs).1 = [] := by
  induction qs with
  | nil => rfl
  | cons p rest ih =>
    have hp : p.2 = [] := h p (List.mem_cons_self _ _)
    have hr := ih fun q hq => h q (List.mem_cons_of_mem _ hq)
    simp only [aggregateLogs, List.map_cons, List.flatten_cons] at hr ⊢
    rw [hp, aggregateQueue_nil, List.nil_append]
    exact hr

theorem aggregateLogs_snd (qs : List (String × List QData)) :
    (aggregateLogs qs).2 = qs.map fun p => (p.1, ([] : List QData)) := rfl

theorem aggregateLogs_snd_empty (qs : List (String × List QData)) :
    ∀ p ∈ (aggregateLogs qs).2, p.2 = ([] : List QData) := by
  intro p hp
  rw [aggregateLogs_snd] at hp
  obtain ⟨q, _, rfl⟩ := List.mem_map.1 hp
  rfl

theorem sendMail_queues (co : Collaborators) (cfg : Config) (ev : String) (st : AppState) :
    (sendMail co cfg ev st).1.queues = st.queues.map fun p => (p.1, ([] : List QData)) := rfl

theorem sendMail_mailTimeout (co : Collaborators) (cfg : Config) (ev : String)
    (st : AppState) : (sendMail co cfg ev st).1.mailTimeout = false := rfl

theorem sendMail_armedTimers (co : Collaborators) (cfg : Config) (ev : String)
    (st : AppState) : (sendMail co cfg ev st).1.armedTimers = st.armedTimers := rfl

theorem sendMail_logs (co : Collaborators) (cfg : Config) (ev : String) (st : AppState) :
    (sendMail co cfg ev st).2.logs = (aggregateLogs st.queues).1 := rfl

theorem sendMail_sent (co : Collaborators) (cfg : Config) (ev : String) (st : AppState) :
    (sendMail co cfg ev st).2.sent =
      (if ((co.mjml2html (co.template (aggregateLogs st.queues).1)).1).length > 0 then none
       else some (MailMsg.mk
         ((if ev == "" then "log:err" else ev) ++ "-" ++ cfg.mail.subject)
         (co.mjml2html (co.template (aggregateLogs st.queues).1)).2)) := rfl

theorem handleEvent_timerInv (co : Collaborators) (cfg : Config) (e : String) (p : Packet)
    (st : AppState)
    (hb : (e == "log:err" || !strIncludes p.data "BROADCST:EMAIL") = true)
    (h : timerInv st) : timerInv (handleEvent co cfg e p st).1 := by
  unfold timerInv at h ⊢
  unfold handleEvent
  cases hw : (watchlist cfg e).contains p.process.name with
  | false => simpa [hw] using h
  | true =>
    cases he : e == "log:err" with
    | true =>
      cases hm : st.mailTimeout with
      | false =>
        rw [hm] at h
        simp only [if_neg Bool.false_ne_true] at h
        simp [hw, he, hm, h]
      | true =>
        rw [hm] at h
        simp only [if_pos rfl] at h
        simp [hw, he, hm, h]
    | false =>
      have hs : strIncludes p.data "BROADCST:EMAIL" = false := by
        rw [he] at hb
        simpa using hb
      simpa [hw, he, hs] using h

theorem step_timerInv (co : Collaborators) (cfg : Config) (st : AppState) (a : AppAction)
    (hb : broadcastFree a = true) (h : timerInv st) : timerInv (step co cfg st a).1 := by
  cases a with
  | ev e p => exact handleEvent_timerInv co cfg e p st hb h
  | fire =>
    unfold timerInv at h ⊢
    unfold step
    by_cases hz : st.armedTimers > 0
    · have hm : st.mailTimeout = true := by
        cases hmt : st.mailTimeout with
        | true => rfl
        | false =>
          rw [hmt] at h
          simp only [if_neg Bool.false_ne_true] at h
          omega
      rw [hm] at h
      simp only [if_pos rfl] at h
      simp [hz, sendMail_armedTimers, sendMail_mailTimeout, h]
    · simpa [hz] using h

theorem runState_timerInv (co : Collaborators) (cfg : Config) (acts : List AppAction)
    (st : AppState) (h : timerInv st) (hb : ∀ a ∈ acts, broadcastFree a = true) :
    timerInv (runState co cfg st acts) := by
  induction acts generalizing st with
  | nil => exact h
  | cons a rest ih =>
    exact ih (step co cfg st a).1
      (step_timerInv co cfg st a (hb a (List.mem_cons_self a rest)) h)
      fun x hx => hb x (List.mem_cons_of_mem a hx)

theorem timerInv_initState (cfg : Config) : timerInv (initState cfg) := rfl

/-! ## Claim theorems -/

/-- C1 counterexample: the process-wide single-timer invariant fails.  After an
error event arms the debounce timer, a broadcast-triggered dispatch completes
while that timer is pending and its `finally` block clears `mailTimeout`
without cancelling the armed `setTimeout`; the next error event then arms a
second timer, leaving two timer handles outstanding at once. -/
theorem broadcast_breaks_single_timer :
    (runState coId cfgEx (initState cfgEx)
      [AppAction.ev "log:err" pErrA, AppAction.ev "log:out" pBroadcast,
       AppAction.ev "log:err" pErrB]).armedTimers = 2 := by
  decide

/-- C1 (amended): in every run of handled events that contains no
broadcast-marker event in a non-error category, at most one debounce timer
handle is ever outstanding; qualifying error events during the pending window
are queued without resetting or duplicating the timer.  (A broadcast-triggered
dispatch completing while the timer is pending releases the `mailTimeout` slot
without cancelling the armed timer, after which a further error event arms a
second handle.) -/
theorem single_timer_without_broadcast (co : Collaborators) (cfg : Config)
    (acts : List AppAction) (hb : ∀ a ∈ acts, broadcastFree a = true) :
    (runState co cfg (initState cfg) acts).armedTimers ≤ 1 := by
  have h := runState_timerInv co cfg acts (initState cfg) (timerInv_initState cfg) hb
  unfold timerInv at h
  rw [h]
  cases (runState co cfg (initState cfg) acts).mailTimeout <;> simp

/-- Witness for `single_timer_without_broadcast` on a concrete broadcast-free
run (two error events with a timer firing in between). -/
theorem single_timer_without_broadcast_witness :
    (∀ a ∈ [AppAction.ev "log:err" pErrA, AppAction.fire, AppAction.ev "log:err" pErrB],
       broadcastFree a = true) ∧
    (runState coId cfgEx (initState cfgEx)
       [AppAction.ev "log:err" pErrA, AppAction.fire,
        AppAction.ev "log:err" pErrB]).armedTimers ≤ 1 :=
  ⟨by decide, single_timer_without_broadcast coId cfgEx _ (by decide)⟩

/-- C2 counterexample: a broadcast-triggered dispatch does not leave the
pending-timer slot unchanged.  With the slot occupied (after an accepted error
event), handling an accepted broadcast-marker event in a non-error category
runs `sendMail`, whose `finally` block sets the slot back to null. -/
theorem broadcast_clears_pending_slot :
    ((handleEvent coId cfgEx "log:err" pErrA (initState cfgEx)).1.mailTimeout = true) ∧
    ((handleEvent coId cfgEx "log:out" pBroadcast
        (handleEvent coId cfgEx "log:err" pErrA (initState cfgEx)).1).1.mailTimeout
      = false) := by
  decide

/-- C2 (amended): a broadcast-triggered dispatch arms no debounce timer and
cancels no armed timer handle (the handle count is unchanged), but it always
leaves the `mailTimeout` slot empty on completion — the slot is preserved only
when it was already empty; an occupied slot is released by the dispatch's
`finally` block. -/
theorem broadcast_dispatch_effect (co : Collaborators) (cfg : Config) (e : String)
    (p : Packet) (st : AppState) (he : (e == "log:err") = false)
    (hw : (watchlist cfg e).contains p.process.name = true)
    (hm : strIncludes p.data "BROADCST:EMAIL" = true) :
    (handleEvent co cfg e p st).1.armedTimers = st.armedTimers ∧
    (handleEvent co cfg e p st).1.mailTimeout = false ∧
    (handleEvent co cfg e p st).2.isSome = true := by
  have hw' : p.process.name ∈ watchlist cfg e := by simpa using hw
  unfold handleEvent
  simp [hw', he, hm, sendMail_armedTimers, sendMail_mailTimeout]

/-- Witness for `broadcast_dispatch_effect` at a concrete broadcast event. -/
theorem broadcast_dispatch_effect_witness :
    (("log:out" == "log:err") = false) ∧
    ((watchlist cfgEx "log:out").contains pBroadcast.process.name = true) ∧
    (strIncludes pBroadcast.data "BROADCST:EMAIL" = true) ∧
    ((handleEvent coId cfgEx "log:out" pBroadcast (initState cfgEx)).1.armedTimers
        = (initState cfgEx).armedTimers ∧
      (handleEvent coId cfgEx "log:out" pBroadcast (initState cfgEx)).1.mailTimeout = false ∧
      (handleEvent coId cfgEx "log:out" pBroadcast (initState cfgEx)).2.isSome = true) :=
  ⟨by decide, by decide, by decide,
    broadcast_dispatch_effect coId cfgEx "log:out" pBroadcast (initState cfgEx)
      (by decide) (by decide) (by decide)⟩

/-- C3: for any sequence of fragments queued within one category and any
process name occurring among them, the `content` record maps that name to the
concatenation of its payloads in arrival order, and the aggregation emits the
entry labelled `name ++ " " ++ category` whose message is the HTML-escape of
that concatenation — escape applied once, after concatenation, never per
fragment. -/
theorem aggregate_concat_then_escape (ev : String) (qdata : List QData) (n : String)
    (h : (qdata.any fun d => d.name == n) = true) :
    lookupA (contentOf qdata) n = some (concatMsgs n qdata) ∧
    Log.mk (n ++ " " ++ ev) (heEncode (concatMsgs n qdata)) ∈ aggregateQueue ev qdata :=
  ⟨lookupA_contentOf qdata n h, mem_aggregateQueue ev qdata n h⟩

/-- Witness for `aggregate_concat_then_escape` on an ampersand split across
two fragments: the escape is applied to the concatenation. -/
theorem aggregate_concat_then_escape_witness :
    (([qdAmp, qdTail].any fun d => d.name == "svc") = true) ∧
    (lookupA (contentOf [qdAmp, qdTail]) "svc" = some (concatMsgs "svc" [qdAmp, qdTail]) ∧
      Log.mk ("svc" ++ " " ++ "log:err") (heEncode (concatMsgs "svc" [qdAmp, qdTail]))
        ∈ aggregateQueue "log:err" [qdAmp, qdTail]) :=
  ⟨by decide, aggregate_concat_then_escape "log:err" [qdAmp, qdTail] "svc" (by decide)⟩

/-- C4: two accepted error events for the same process arriving before the
debounce timer fires trigger no dispatch of their own and share one armed
timer; the timer firing produces the single dispatch of the window, whose
aggregated entry for the process is the escape of the concatenated payloads,
after which the slot is free and no timer remains armed. -/
theorem rapid_errors_collapse (co : Collaborators) (ws : List String) (t : Nat)
    (ms n a b : String) (h : ws.contains n = true) :
    (twoErrorsThenFire co (cfgErr ws t ms) n a b).1.2 = none ∧
    (twoErrorsThenFire co (cfgErr ws t ms) n a b).2.1.2 = none ∧
    (twoErrorsThenFire co (cfgErr ws t ms) n a b).1.1.armedTimers = 1 ∧
    (twoErrorsThenFire co (cfgErr ws t ms) n a b).2.1.1.armedTimers = 1 ∧
    ((twoErrorsThenFire co (cfgErr ws t ms) n a b).2.2.2).map DispatchResult.logs
      = some [Log.mk (n ++ " " ++ "log:err") (heEncode (a ++ b))] ∧
    (twoErrorsThenFire co (cfgErr ws t ms) n a b).2.2.1.armedTimers = 0 ∧
    (twoErrorsThenFire co (cfgErr ws t ms) n a b).2.2.1.mailTimeout = false := by
  have hwl : watchlist ⟨[("log:err", ws)], t, ⟨ms⟩⟩ "log:err" = ws := by
    simp [watchlist, List.find?]
  have hw : n ∈ ws := by simpa using h
  simp [twoErrorsThenFire, handleEvent, step, sendMail, aggregateLogs, aggregateQueue,
    contentOf, addFragment, pushQueue, initState, eventTypes, cfgErr, hwl, hw]

/-- Witness for `rapid_errors_collapse` at concrete inputs. -/
theorem rapid_errors_collapse_witness :
    ((["svc"] : List String).contains "svc" = true) ∧
    ((twoErrorsThenFire coId (cfgErr ["svc"] 9 "alerts") "svc" "A" "B").1.2 = none ∧
      (twoErrorsThenFire coId (cfgErr ["svc"] 9 "alerts") "svc" "A" "B").2.1.2 = none ∧
      (twoErrorsThenFire coId (cfgErr ["svc"] 9 "alerts") "svc" "A" "B").1.1.armedTimers = 1 ∧
      (twoErrorsThenFire coId (cfgErr ["svc"] 9 "alerts") "svc" "A" "B").2.1.1.armedTimers = 1 ∧
      ((twoErrorsThenFire coId (cfgErr ["svc"] 9 "alerts") "svc" "A" "B").2.2.2).map
          DispatchResult.logs
        = some [Log.mk ("svc" ++ " " ++ "log:err") (heEncode ("A" ++ "B"))] ∧
      (twoErrorsThenFire coId (cfgErr ["svc"] 9 "alerts") "svc" "A" "B").2.2.1.armedTimers = 0 ∧
      (twoErrorsThenFire coId (cfgErr ["svc"] 9 "alerts") "svc" "A" "B").2.2.1.mailTimeout
        = false) :=
  ⟨by decide, rapid_errors_collapse coId ["svc"] 9 "alerts" "svc" "A" "B" (by decide)⟩

/-- C5: every dispatch aggregates across all categories: after `sendMail` every
queue (not only the triggering category's) is drained empty, and every fragment
queued in any category at dispatch time is represented in the emitted logs —
the entry for its process and category appears in the aggregated output handed
to the renderer. -/
theorem dispatch_flushes_all_categories (co : Collaborators) (cfg : Config)
    (ev : String) (st : AppState) (c : String) (q : List QData) (d : QData)
    (hq : (c, q) ∈ st.queues) (hd : d ∈ q) :
    (∀ p ∈ (sendMail co cfg ev st).1.queues, p.2 = ([] : List QData)) ∧
    Log.mk (d.name ++ " " ++ c) (heEncode (concatMsgs d.name q))
      ∈ (sendMail co cfg ev st).2.logs := by
  constructor
  · intro p hp
    rw [sendMail_queues] at hp
    obtain ⟨x, _, rfl⟩ := List.mem_map.1 hp
    rfl
  · rw [sendMail_logs]
    have hany : (q.any fun x => x.name == d.name) = true :=
      List.any_eq_true.2 ⟨d, hd, by simp⟩
    exact List.mem_flatten.2
      ⟨aggregateQueue c q, List.mem_map_of_mem _ hq, mem_aggregateQueue c q d.name hany⟩

/-- Witness for `dispatch_flushes_all_categories`: an error fragment queued but
not yet covered by a fired timer is flushed by a dispatch triggered from the
other category. -/
theorem dispatch_flushes_all_categories_witness :
    (("log:err", [QData.mk "log:err" "svc" "A"])
        ∈ (AppState.mk [("log:err", [QData.mk "log:err" "svc" "A"]), ("log:out", [])]
            true 1).queues) ∧
    (QData.mk "log:err" "svc" "A" ∈ [QData.mk "log:err" "svc" "A"]) ∧
    ((∀ p ∈ (sendMail coId cfgEx "log:out"
          (AppState.mk [("log:err", [QData.mk "log:err" "svc" "A"]), ("log:out", [])]
            true 1)).1.queues, p.2 = ([] : List QData)) ∧
      Log.mk ("svc" ++ " " ++ "log:err")
          (heEncode (concatMsgs "svc" [QData.mk "log:err" "svc" "A"]))
        ∈ (sendMail coId cfgEx "log:out"
            (AppState.mk [("log:err", [QData.mk "log:err" "svc" "A"]), ("log:out", [])]
              true 1)).2.logs) :=
  ⟨by decide, by decide,
    dispatch_flushes_all_categories coId cfgEx "log:out"
      (AppState.mk [("log:err", [QData.mk "log:err" "svc" "A"]), ("log:out", [])] true 1)
      "log:err" [QData.mk "log:err" "svc" "A"] (QData.mk "log:err" "svc" "A")
      (by decide) (by decide)⟩

/-- C6: when the mjml collaborator reports a non-empty error list for the
rendered content, the dispatch hands nothing to the mail transport; the
`mailTimeout` slot is released by every dispatch regardless of collaborator
outcome; and a subsequently accepted error event finds the slot free and arms
a fresh timer. -/
theorem render_error_skips_send_releases_slot (co : Collaborators) (cfg : Config)
    (ev : String) (st : AppState) (p : Packet)
    (herr : ((co.mjml2html (co.template (aggregateLogs st.queues).1)).1).length > 0)
    (hw : (watchlist cfg "log:err").contains p.process.name = true) :
    (sendMail co cfg ev st).2.sent = none ∧
    (∀ co' : Collaborators, (sendMail co' cfg ev st).1.mailTimeout = false) ∧
    (handleEvent co cfg "log:err" p (sendMail co cfg ev st).1).1.mailTimeout = true ∧
    (handleEvent co cfg "log:err" p (sendMail co cfg ev st).1).1.armedTimers
      = st.armedTimers + 1 := by
  have hw' : p.process.name ∈ watchlist cfg "log:err" := by simpa using hw
  refine ⟨?_, fun co' => sendMail_mailTimeout co' cfg ev st, ?_, ?_⟩
  · rw [sendMail_sent, if_pos herr]
  · unfold handleEvent
    simp [hw', sendMail_mailTimeout]
  · unfold handleEvent
    simp [hw', sendMail_mailTimeout, sendMail_armedTimers]

/-- Witness for `render_error_skips_send_releases_slot` with collaborators
whose mjml step always reports an error. -/
theorem render_error_skips_send_releases_slot_witness :
    (((coErr.mjml2html (coErr.template
          (aggregateLogs (initState cfgEx).queues).1)).1).length > 0) ∧
    ((watchlist cfgEx "log:err").contains pErrA.process.name = true) ∧
    ((sendMail coErr cfgEx "log:err" (initState cfgEx)).2.sent = none ∧
      (∀ co' : Collaborators,
        (sendMail co' cfgEx "log:err" (initState cfgEx)).1.mailTimeout = false) ∧
      (handleEvent coErr cfgEx "log:err" pErrA
          (sendMail coErr cfgEx "log:err" (initState cfgEx)).1).1.mailTimeout = true ∧
      (handleEvent coErr cfgEx "log:err" pErrA
          (sendMail coErr cfgEx "log:err" (initState cfgEx)).1).1.armedTimers
        = (initState cfgEx).armedTimers + 1) :=
  ⟨by decide, by decide,
    render_error_skips_send_releases_slot coErr cfgEx "log:err" (initState cfgEx) pErrA
      (by decide) (by decide)⟩

/-- C7: draining is exhaustive and exactly-once: draining the drained queues
again yields no log entries, a dispatch leaves every queue empty, and a second
back-to-back dispatch therefore aggregates nothing — no fragment is counted
twice and none is left behind by a drain. -/
theorem drain_exactly_once (qs : List (String × List QData)) (co : Collaborators)
    (cfg : Config) (ev : String) (st : AppState) :
    (aggregateLogs (aggregateLogs qs).2).1 = [] ∧
    (∀ p ∈ (sendMail co cfg ev st).1.queues, p.2 = ([] : List QData)) ∧
    (sendMail co cfg ev (sendMail co cfg ev st).1).2.logs = [] := by
  refine ⟨aggregateLogs_fst_of_empty _ (aggregateLogs_snd_empty qs), ?_, ?_⟩
  · intro p hp
    rw [sendMail_queues] at hp
    obtain ⟨x, _, rfl⟩ := List.mem_map.1 hp
    rfl
  · rw [sendMail_logs]
    apply aggregateLogs_fst_of_empty
    intro p hp
    rw [sendMail_queues] at hp
    obtain ⟨x, _, rfl⟩ := List.mem_map.1 hp
    rfl

/-- C8: an event whose process name is not on its category's watch-list is
dropped silently: the whole state (queues, slot, timer count) is returned
unchanged and no dispatch is triggered. -/
theorem rejected_event_is_noop (co : Collaborators) (cfg : Config) (e : String)
    (p : Packet) (st : AppState)
    (h : (watchlist cfg e).contains p.process.name = false) :
    handleEvent co cfg e p st = (st, none) := by
  have h' : p.process.name ∉ watchlist cfg e := by simpa using h
  unfold handleEvent
  simp [h']

/-- Witness for `rejected_event_is_noop` on a process that is on no watch-list. -/
theorem rejected_event_is_noop_witness :
    ((watchlist cfgEx "log:err").contains pGhost.process.name = false) ∧
    (handleEvent coId cfgEx "log:err" pGhost (initState cfgEx) = (initState cfgEx, none)) :=
  ⟨by decide, rejected_event_is_noop coId cfgEx "log:err" pGhost (initState cfgEx) (by decide)⟩

/-- C9 counterexample: a supervisor (pm2) connection failure does not terminate
the process with a non-zero status — the main IIFE's catch handler only logs
`Fatal error` and sets no exit code. -/
theorem supervisor_failure_exits_zero :
    startup true false true cfgEx = StartupResult.caughtFatal ∧
    exitsNonzero (startup true false true cfgEx) = false := by
  decide

/-- C9 (amended): a failed SMTP verification terminates the process with exit
status 1 before any subscription begins; a failed supervisor connection or bus
launch is caught by the top-level handler before any subscription begins, but
only logs the error — no non-zero exit status is set. -/
theorem startup_failure_behavior (b c : Bool) (cfg : Config) :
    startup false b c cfg = StartupResult.exited 1 ∧
    startup true false c cfg = StartupResult.caughtFatal ∧
    startup true true false cfg = StartupResult.caughtFatal :=
  ⟨rfl, rfl, rfl⟩

/-- C10: a dispatch that finds every queue empty still proceeds: the aggregated
log list is empty, yet (when the collaborators report no render errors for the
empty list) an email is still handed to the mail transport, with the subject
built from the triggering category. -/
theorem empty_aggregation_still_sends (co : Collaborators) (cfg : Config)
    (ev : String) (st : AppState)
    (hq : ∀ p ∈ st.queues, p.2 = ([] : List QData))
    (hr : (co.mjml2html (co.template ([] : List Log))).1 = []) :
    (sendMail co cfg ev st).2.logs = [] ∧
    (sendMail co cfg ev st).2.sent = some (MailMsg.mk
      ((if ev == "" then "log:err" else ev) ++ "-" ++ cfg.mail.subject)
      (co.mjml2html (co.template ([] : List Log))).2) := by
  have hl : (aggregateLogs st.queues).1 = [] := aggregateLogs_fst_of_empty _ hq
  constructor
  · rw [sendMail_logs, hl]
  · rw [sendMail_sent, hl, hr]
    simp

/-- Witness for `empty_aggregation_still_sends` on the claim's own scenario:
the timer fires after a broadcast-triggered dispatch has already drained the
error queue (the armed timer was never cancelled), and an empty-log email is
still produced. -/
theorem empty_aggregation_still_sends_witness :
    (∀ p ∈ ((handleEvent coId cfgEx "log:out" pBroadcast
        (handleEvent coId cfgEx "log:err" pErrA (initState cfgEx)).1).1).queues,
      p.2 = ([] : List QData)) ∧
    ((coId.mjml2html (coId.template ([] : List Log))).1 = []) ∧
    ((sendMail coId cfgEx "log:err" (handleEvent coId cfgEx "log:out" pBroadcast
        (handleEvent coId cfgEx "log:err" pErrA (initState cfgEx)).1).1).2.logs = [] ∧
      (sendMail coId cfgEx "log:err" (handleEvent coId cfgEx "log:out" pBroadcast
          (handleEvent coId cfgEx "log:err" pErrA (initState cfgEx)).1).1).2.sent
        = some (MailMsg.mk
          ((if ("log:err" : String) == "" then "log:err" else "log:err") ++ "-" ++
            cfgEx.mail.subject)
          (coId.mjml2html (coId.template ([] : List Log))).2)) :=
  ⟨by decide, by decide,
    empty_aggregation_still_sends coId cfgEx "log:err"
      (handleEvent coId cfgEx "log:out" pBroadcast
        (handleEvent coId cfgEx "log:err" pErrA (initState cfgEx)).1).1
      (by decide) (by decide)⟩
